import Mathlib

/-!
Shallow embedding of the HTTP client of this repository (HttpClient.ts):
the query-parameter serializer, the request-key generator, the response
normalizer, the request/response interceptor pipelines, the retry policy
engine and the cancellation registry, together with theorems checking the
specification claims against these definitions.

JavaScript effects are made explicit: mutable instance state (the pending
request map, abort flags) is threaded as a `ClientState`, observable calls
(interceptor handlers, the transport) are recorded in a trace, thrown
values are `Except` errors, and retry recursion is driven by a fuel that
the public entry point sets above the retry budget so it never runs out.
-/

namespace Http

/-- Value of a query parameter at runtime: the declared type is string,
number or boolean, and the serializer additionally guards against
undefined and null values. -/
inductive PVal
  | str (s : String)
  | num (n : Int)
  | bool (b : Bool)
  | undef
  | null
  deriving DecidableEq

/-- JS String(value) applied to a parameter value. -/
def pvalToString : PVal → String
  | .str s => s
  | .num n => toString n
  | .bool b => if b then "true" else "false"
  | .undef => "undefined"
  | .null => "null"

/-- JS whitespace as trimmed by String.prototype.trim (the ASCII part;
the further Unicode space code points play no role here). -/
def jsWhitespace (c : Char) : Bool :=
  c == ' ' || c == '\t' || c == '\n' || c == '\r' || c.toNat == 11 || c.toNat == 12

/-- JS String.prototype.trim. -/
def jsTrim (s : String) : String :=
  String.mk (((s.data.dropWhile jsWhitespace).reverse.dropWhile jsWhitespace).reverse)

/-- JS case mapping toLowerCase (character-wise). -/
def strLower (s : String) : String :=
  String.mk (s.data.map Char.toLower)

/-- JS case mapping toUpperCase (character-wise). -/
def strUpper (s : String) : String :=
  String.mk (s.data.map Char.toUpper)

/-- The guard of createURLWithParams:
value !== undefined && value !== null && String(value).trim() !== "". -/
def pvalKeep (v : PVal) : Bool :=
  v != PVal.undef && v != PVal.null && jsTrim (pvalToString v) != ""

/-- Uppercase hexadecimal digit, as the URLSearchParams serializer emits. -/
def hexDigit (n : Nat) : Char :=
  if n < 10 then Char.ofNat (48 + n) else Char.ofNat (55 + n)

/-- UTF-8 bytes of a character, for percent-encoding. -/
def utf8Bytes (c : Char) : List Nat :=
  let n := c.toNat
  if n < 128 then [n]
  else if n < 2048 then [192 + n / 64, 128 + n % 64]
  else if n < 65536 then [224 + n / 4096, 128 + (n / 64) % 64, 128 + n % 64]
  else [240 + n / 262144, 128 + (n / 4096) % 64, 128 + (n / 64) % 64, 128 + n % 64]

/-- Characters the application/x-www-form-urlencoded serializer leaves as-is. -/
def formSafeChar (c : Char) : Bool :=
  c.isAlphanum || c == '*' || c == '-' || c == '.' || c == '_'

/-- Percent-encode one byte, uppercase hex. -/
def encodeByte (b : Nat) : String :=
  String.mk ['%', hexDigit (b / 16), hexDigit (b % 16)]

/-- Encoding of one string by the URLSearchParams serializer
(application/x-www-form-urlencoded): safe characters kept, space written
as '+', everything else percent-encoded bytewise. -/
def formUrlEncode (s : String) : String :=
  s.data.foldl (fun acc c =>
    if c == ' ' then acc.push '+'
    else if formSafeChar c then acc.push c
    else acc ++ String.join ((utf8Bytes c).map encodeByte)) ""

/-- URLSearchParams.toString(): key=value pairs joined with ampersands. -/
def searchParamsToString (ps : List (String × String)) : String :=
  String.intercalate "&" (ps.map fun kv => formUrlEncode kv.1 ++ "=" ++ formUrlEncode kv.2)

/-- createURLWithParams(url, params): append the kept parameters, with a
question mark unless the url already has one, ampersand otherwise. -/
def createURLWithParams (url : String) (params : Option (List (String × PVal))) : String :=
  match params with
  | none => url
  | some ps =>
    let searchParams :=
      ps.foldl (fun acc kv =>
        if pvalKeep kv.2 then acc ++ [(kv.1, pvalToString kv.2)] else acc) []
    let queryString := searchParamsToString searchParams
    if queryString != ""
    then url ++ (if url.data.contains '?' then "&" else "?") ++ queryString
    else url

/-- Parsed response data: null for an empty body, a parsed JSON value for a
JSON content type, raw text otherwise. -/
inductive ParsedData
  | null
  | json (j : String)
  | text (s : String)
  deriving DecidableEq

/-- View of a thrown error as a retry predicate observes it: message,
status and data fields. (The configuration and cause fields are left out
of this view so that the types stay well-founded; no retry predicate in
the repository inspects them.) -/
structure ErrView where
  message : String
  status : Option Nat
  data : Option ParsedData
  deriving DecidableEq

/-- RetryConfig: remaining count, optional delay, optional predicate. -/
structure RetryConfig where
  count : Int
  delay : Option Nat := none
  shouldRetry : Option (ErrView → Bool) := none

/-- RequestOptions: per-call options of the client. -/
structure RequestOptions where
  method : Option String := none
  headers : List (String × String) := []
  body : Option String := none
  params : Option (List (String × PVal)) := none
  timeout : Option Nat := none
  credentials : Option String := none
  retry : Option RetryConfig := none
  url : Option String := none

/-- HttpResponse: the normalized envelope. -/
structure HttpResponse where
  data : ParsedData
  status : Nat
  headers : List (String × String)
  config : RequestOptions

/-- HttpRequestError: the uniform error record. The cause field holds the
name of the underlying platform error when there is one. -/
structure ErrVal where
  message : String
  status : Option Nat := none
  data : Option ParsedData := none
  config : Option RequestOptions := none
  cause : Option String := none

/-- A thrown JS value: either a plain error record object, or a platform
Error instance identified by its name (AbortError, TypeError, ...). -/
inductive ErrThrown
  | record (e : ErrVal)
  | jsError (name : String)

/-- error.status of a thrown value: a platform Error has no status field. -/
def errStatusOf : ErrThrown → Option Nat
  | .record e => e.status
  | .jsError _ => none

/-- The view of a thrown value handed to a retry predicate. -/
def errView : ErrThrown → ErrView
  | .record e => ErrView.mk e.message e.status e.data
  | .jsError n => ErrView.mk n none none

/-- Eligibility decision of retryRequest:
retryConfig.shouldRetry?.(error) ?? (error.status ? error.status >= 500 : true).
A status of 0 is falsy in JS, so it takes the default true branch. -/
def retryEligible (rc : RetryConfig) (e : ErrThrown) : Bool :=
  match rc.shouldRetry with
  | some p => p (errView e)
  | none =>
    match errStatusOf e with
    | none => true
    | some s => if s == 0 then true else decide (500 ≤ s)

/-- The retry configuration passed to the re-issued request:
the spread of retryConfig with count replaced by retryCount - 1. -/
def retryNext (rc : RetryConfig) : RetryConfig :=
  { rc with count := rc.count - 1 }

/-- Headers.get(name): case-insensitive lookup, null when absent. -/
def headersGet (hs : List (String × String)) (name : String) : Option String :=
  (hs.find? fun kv => strLower kv.1 == strLower name).map (fun kv => kv.2)

/-- Substring occurrence on character lists. -/
def charsContains (sub : List Char) : List Char → Bool
  | [] => sub.isPrefixOf ([] : List Char)
  | c :: rest => sub.isPrefixOf (c :: rest) || charsContains sub rest

/-- JS substring test s.includes(sub). -/
def includesSubstr (s sub : String) : Bool :=
  charsContains sub.data s.data

/-- A raw transport body: its text rendering and the outcome of JSON
parsing it (an error stands for a thrown SyntaxError). -/
structure RawBody where
  text : String := ""
  json : Except Unit String := .error ()

/-- A raw transport response. -/
structure RawResponse where
  status : Nat
  headers : List (String × String) := []
  body : Option RawBody := none

/-- Response.ok: status in the inclusive range 200 to 299. -/
def RawResponse.ok (r : RawResponse) : Bool :=
  decide (200 ≤ r.status ∧ r.status ≤ 299)

/-- Body-parsing step of handleResponse: parse only if there is a body and
content-length is not the string 0; JSON content types go through the JSON
parser (whose failure is a thrown SyntaxError, the error case here),
anything else is captured as text. -/
def parseBody (response : RawResponse) : Except Unit ParsedData :=
  match response.body with
  | none => .ok .null
  | some b =>
    if headersGet response.headers "content-length" != some "0" then
      match headersGet response.headers "content-type" with
      | some ct =>
        if includesSubstr ct "application/json" then
          match b.json with
          | .ok j => .ok (.json j)
          | .error _ => .error ()
        else .ok (.text b.text)
      | none => .ok (.text b.text)
    else .ok .null

/-- handleResponse(response, config): a thrown SyntaxError from parsing is
converted to the Invalid response format record; a non-ok status throws an
HTTP error record carrying the parsed data; otherwise the envelope is
returned with the status passed through. -/
def handleResponse (response : RawResponse) (config : RequestOptions) :
    Except ErrThrown HttpResponse :=
  match parseBody response with
  | .error _ =>
    .error (.record { message := "Invalid response format",
                      status := some response.status, data := some .null,
                      config := some config, cause := some "SyntaxError" })
  | .ok data =>
    if !response.ok then
      .error (.record { message := "HTTP error! status: " ++ toString response.status,
                        status := some response.status, data := some data,
                        config := some config })
    else
      .ok { data := data, status := response.status,
            headers := response.headers, config := config }

/-- A request interceptor: an optional configuration transform and an
optional error handler whose return value is discarded. -/
structure RequestInterceptor where
  onRequest : Option (RequestOptions → Except ErrThrown RequestOptions) := none
  onRequestError : Option (ErrThrown → Except ErrThrown Unit) := none

/-- What an onResponseError handler may return without throwing: per its
declared type, either an envelope or an error record value. -/
inductive RespErrResult
  | response (r : HttpResponse)
  | errval (e : ErrVal)

/-- A response interceptor: an optional envelope transform and an optional
error handler. -/
structure ResponseInterceptor where
  onResponse : Option (HttpResponse → Except ErrThrown HttpResponse) := none
  onResponseError : Option (ErrThrown → Except ErrThrown RespErrResult) := none

/-- Transport fetch outcome: a raw response, or a rejection with a platform
Error of the given name (TypeError for network failure, AbortError for
cancellation). -/
inductive FetchOutcome
  | resp (r : RawResponse)
  | jsErr (name : String)

/-- The argument object handed to fetch after spreading the intercepted
options, merging headers and resolving the credentials mode. -/
structure FetchOptions where
  method : Option String
  headers : List (String × String)
  body : Option String
  credentials : String

/-- The client instance: construction-time configuration, the registered
interceptor lists, and the host-supplied transport. -/
structure HttpClient where
  baseURL : String := ""
  defaultHeaders : List (String × String) := [("Content-Type", "application/json")]
  defaultTimeout : Nat := 3000
  defaultCredentials : String := "same-origin"
  defaultRetry : Option RetryConfig := none
  requestInterceptors : List RequestInterceptor := []
  responseInterceptors : List ResponseInterceptor := []
  fetchFn : String → FetchOptions → FetchOutcome

/-- Observable events of one run: handler invocations are tagged with the
registration index of their interceptor, transport calls carry the final
url, method and body. -/
inductive Event
  | onRequestCall (i : Nat)
  | onRequestErrorCall (i : Nat)
  | onResponseCall (i : Nat)
  | onResponseErrorCall (i : Nat)
  | fetchCall (url : String) (method : Option String) (body : Option String)
  deriving DecidableEq, BEq

/-- Mutable instance state: the pendingRequests map (request key to
controller id), which controllers have been aborted, the next fresh
controller id, and the event trace. -/
structure ClientState where
  pending : List (String × Nat) := []
  aborted : List Nat := []
  nextId : Nat := 0
  trace : List Event := []

/-- Record an observable event. -/
def logEvent (st : ClientState) (ev : Event) : ClientState :=
  { st with trace := st.trace ++ [ev] }

/-- pendingRequests.delete(key). -/
def pendingDelete (st : ClientState) (key : String) : ClientState :=
  { st with pending := st.pending.filter fun kv => kv.1 != key }

/-- cancelRequest(requestKey): abort and remove the entry when present, do
nothing otherwise. -/
def cancelRequest (st : ClientState) (requestKey : String) : ClientState :=
  match st.pending.find? (fun kv => kv.1 == requestKey) with
  | some kv =>
    { st with aborted := st.aborted ++ [kv.2],
              pending := st.pending.filter fun x => x.1 != requestKey }
  | none => st

/-- JS s1 || s2 for an optional string: an absent or empty string is falsy. -/
def jsOrStr (o : Option String) (d : String) : String :=
  match o with
  | some s => if s == "" then d else s
  | none => d

/-- JSON.stringify of the body string (escaping of characters inside the
body is not modelled; no claim depends on it). -/
def jsonStringifyString (s : String) : String :=
  "\"" ++ s ++ "\""

/-- createRequestKey(url, options):
method-url-credentials-stringified body, with JS || defaulting. -/
def createRequestKey (client : HttpClient) (url : String) (options : RequestOptions) : String :=
  jsOrStr options.method "GET" ++ "-" ++ url ++ "-"
    ++ jsOrStr options.credentials client.defaultCredentials ++ "-"
    ++ jsonStringifyString (options.body.getD "")

/-- JS object-spread update of one key: replace in place when present,
append otherwise. -/
def objSet (o : List (String × String)) (k v : String) : List (String × String) :=
  if o.any (fun kv => kv.1 == k)
  then o.map (fun kv => if kv.1 == k then (k, v) else kv)
  else o ++ [(k, v)]

/-- JS object spread of b over a: later keys win. -/
def objMerge (a b : List (String × String)) : List (String × String) :=
  b.foldl (fun acc kv => objSet acc kv.1 kv.2) a

/-- The body-dropping guard of request:
["GET", "HEAD"].includes(fetchOptions.method?.toUpperCase() || "").
An absent method yields the empty string, which is not in the list. -/
def methodIsGetOrHead (m : Option String) : Bool :=
  let s := (m.map strUpper).getD ""
  s == "GET" || s == "HEAD"

/-- The fetchOptions object built in request: spread of the intercepted
options with merged headers and resolved credentials, body deleted for an
explicit GET or HEAD method. -/
def buildFetchOptions (client : HttpClient) (io : RequestOptions) : FetchOptions :=
  let base : FetchOptions :=
    { method := io.method,
      headers := objMerge client.defaultHeaders io.headers,
      body := io.body,
      credentials := jsOrStr io.credentials client.defaultCredentials }
  if methodIsGetOrHead base.method then { base with body := none } else base

/-- Inner loop of the request-interceptor failure path: run every
registered onRequestError handler in order; the awaited handler result is
discarded, but a handler that itself throws stops the iteration and its
failure propagates. -/
def runOnRequestErrorHandlers :
    List (Nat × RequestInterceptor) → ErrThrown → ClientState →
    Except ErrThrown Unit × ClientState
  | [], _, st => (.ok (), st)
  | p :: rest, e, st =>
    match p.2.onRequestError with
    | none => runOnRequestErrorHandlers rest e st
    | some h =>
      let st1 := logEvent st (.onRequestErrorCall p.1)
      match h e with
      | .ok _ => runOnRequestErrorHandlers rest e st1
      | .error e2 => (.error e2, st1)

/-- applyRequestInterceptors: fold the onRequest transforms over the
configuration in registration order; on the first transform failure run
all onRequestError handlers, then rethrow the original failure. -/
def applyRequestInterceptorsGo (all : List (Nat × RequestInterceptor)) :
    List (Nat × RequestInterceptor) → RequestOptions → ClientState →
    Except ErrThrown RequestOptions × ClientState
  | [], config, st => (.ok config, st)
  | p :: rest, config, st =>
    match p.2.onRequest with
    | none => applyRequestInterceptorsGo all rest config st
    | some f =>
      let st1 := logEvent st (.onRequestCall p.1)
      match f config with
      | .ok c2 => applyRequestInterceptorsGo all rest c2 st1
      | .error e =>
        match runOnRequestErrorHandlers all e st1 with
        | (.ok _, st2) => (.error e, st2)
        | (.error e2, st2) => (.error e2, st2)

/-- Entry point of the request-interceptor chain. -/
def applyRequestInterceptors (client : HttpClient) (config : RequestOptions)
    (st : ClientState) : Except ErrThrown RequestOptions × ClientState :=
  applyRequestInterceptorsGo client.requestInterceptors.enum
    client.requestInterceptors.enum config st

/-- Inner loop of the response-interceptor failure path, symmetric to the
request side: handler results are awaited and discarded, a throwing
handler stops the iteration with its own failure. -/
def runOnResponseErrorHandlers :
    List (Nat × ResponseInterceptor) → ErrThrown → ClientState →
    Except ErrThrown Unit × ClientState
  | [], _, st => (.ok (), st)
  | p :: rest, e, st =>
    match p.2.onResponseError with
    | none => runOnResponseErrorHandlers rest e st
    | some h =>
      let st1 := logEvent st (.onResponseErrorCall p.1)
      match h e with
      | .ok _ => runOnResponseErrorHandlers rest e st1
      | .error e2 => (.error e2, st1)

/-- applyResponseInterceptors: fold the onResponse transforms over the
envelope in registration order; on the first transform failure run all
onResponseError handlers for observation, then rethrow the original. -/
def applyResponseInterceptorsGo (all : List (Nat × ResponseInterceptor)) :
    List (Nat × ResponseInterceptor) → HttpResponse → ClientState →
    Except ErrThrown HttpResponse × ClientState
  | [], response, st => (.ok response, st)
  | p :: rest, response, st =>
    match p.2.onResponse with
    | none => applyResponseInterceptorsGo all rest response st
    | some f =>
      let st1 := logEvent st (.onResponseCall p.1)
      match f response with
      | .ok r2 => applyResponseInterceptorsGo all rest r2 st1
      | .error e =>
        match runOnResponseErrorHandlers all e st1 with
        | (.ok _, st2) => (.error e, st2)
        | (.error e2, st2) => (.error e2, st2)

/-- Entry point of the response-interceptor chain. -/
def applyResponseInterceptors (client : HttpClient) (response : HttpResponse)
    (st : ClientState) : Except ErrThrown HttpResponse × ClientState :=
  applyResponseInterceptorsGo client.responseInterceptors.enum
    client.responseInterceptors.enum response st

/-- Recovery loop of the catch block of request: each handler is tried on
the original httpError; the first one that returns short-circuits with its
returned value, a throwing handler replaces the current error and the loop
continues; when no handler returns, the last failure is left. -/
def recoveryLoop :
    List (Nat × ResponseInterceptor) → ErrThrown → ErrThrown → ClientState →
    Except ErrThrown RespErrResult × ClientState
  | [], _, err, st => (.error err, st)
  | p :: rest, httpError, err, st =>
    match p.2.onResponseError with
    | none => recoveryLoop rest httpError err st
    | some h =>
      let st1 := logEvent st (.onResponseErrorCall p.1)
      match h httpError with
      | .ok v => (.ok v, st1)
      | .error e2 => recoveryLoop rest httpError e2 st1

/-- Tail of the catch block once no retry is taken: the recovery loop over
the response interceptors, then abort-specific translation, then rethrow. -/
def catchTail (client : HttpClient) (options : RequestOptions) (httpError : ErrThrown)
    (st : ClientState) : Except ErrThrown RespErrResult × ClientState :=
  match recoveryLoop client.responseInterceptors.enum httpError httpError st with
  | (.ok v, st1) => (.ok v, st1)
  | (.error finalErr, st1) =>
    match finalErr with
    | .jsError n =>
      if n == "AbortError" then
        (.error (.record { message := "Request was cancelled", config := some options,
                           cause := some "AbortError" }), st1)
      else (.error (.jsError n), st1)
    | e => (.error e, st1)

/-- The try block of request: create the fresh abort controller (arming of
the timeout timer is a concurrent event, not modelled), run the request
interceptors, resolve the full url, build the fetch options, call the
transport, then normalize and run the response interceptors. Note that
the freshly created controller is never inserted into the pending map:
the source has no pendingRequests.set call. -/
def requestAttempt (client : HttpClient) (requestKey : String) (url : String)
    (options : RequestOptions) (st : ClientState) :
    Except ErrThrown RespErrResult × ClientState :=
  let st0 := { st with nextId := st.nextId + 1 }
  match applyRequestInterceptors client options st0 with
  | (.error e, st1) => (.error e, st1)
  | (.ok interceptedOptions, st1) =>
    let fullUrl := createURLWithParams (client.baseURL ++ url) interceptedOptions.params
    let fetchOptions := buildFetchOptions client interceptedOptions
    let st2 := logEvent st1 (.fetchCall fullUrl fetchOptions.method fetchOptions.body)
    match client.fetchFn fullUrl fetchOptions with
    | .jsErr n => (.error (.jsError n), st2)
    | .resp response =>
      let st3 := pendingDelete st2 requestKey
      match handleResponse response interceptedOptions with
      | .error e => (.error e, st3)
      | .ok handled =>
        match applyResponseInterceptors client handled st3 with
        | (.ok r, st4) => (.ok (.response r), st4)
        | (.error e, st4) => (.error e, st4)

/-- The retry configuration in effect for a call:
options.retry || this.defaultRetry. -/
def effRetry (client : HttpClient) (options : RequestOptions) : Option RetryConfig :=
  options.retry.orElse (fun _ => client.defaultRetry)

/-- request(url, options), fueled: the attempt followed by the catch
block, in which the retry branch (positive remaining count, then the
eligibility test of retryRequest, then the recursive re-entry with the
count decremented) comes before the recovery loop and abort translation.
The fuel only bounds the recursion; the public entry point supplies one
more than the effective retry count, so the zero-fuel branch is never
reached from it. -/
def requestGo (client : HttpClient) (fuel : Nat) (url : String)
    (options : RequestOptions) (st : ClientState) :
    Except ErrThrown RespErrResult × ClientState :=
  match requestAttempt client (createRequestKey client url options) url options st with
  | (.ok v, st1) => (.ok v, st1)
  | (.error e, st1) =>
    let st2 := pendingDelete st1 (createRequestKey client url options)
    match effRetry client options with
    | some rc =>
      if 0 < rc.count then
        if retryEligible rc e then
          match fuel with
          | fuel2 + 1 =>
            requestGo client fuel2 url { options with retry := some (retryNext rc) } st2
          | 0 => (.error e, st2)
        else (.error e, st2)
      else catchTail client options e st2
    | none => catchTail client options e st2

/-- Fuel that strictly dominates the retry recursion depth. -/
def requestFuel (client : HttpClient) (options : RequestOptions) : Nat :=
  match effRetry client options with
  | some rc => rc.count.toNat + 1
  | none => 1

/-- Public request(url, options). -/
def request (client : HttpClient) (url : String) (options : RequestOptions)
    (st : ClientState) : Except ErrThrown RespErrResult × ClientState :=
  requestGo client (requestFuel client options) url options st

/-- Verb shorthand get(url, options): request with the method fixed. -/
def get (client : HttpClient) (url : String) (options : RequestOptions)
    (st : ClientState) : Except ErrThrown RespErrResult × ClientState :=
  request client url { options with method := some "GET" } st

/-- Status carried by a rejected result. -/
def resultErrStatus : Except ErrThrown RespErrResult → Option Nat
  | .error e => errStatusOf e
  | .ok _ => none

/-- Message of a rejected result (an Error name for a platform error). -/
def resultErrMessage : Except ErrThrown RespErrResult → Option String
  | .error (.record e) => some e.message
  | .error (.jsError n) => some n
  | .ok _ => none

/-- Whether the request fulfilled. -/
def resultIsOk : Except ErrThrown RespErrResult → Bool
  | .ok _ => true
  | .error _ => false

/-- Status of a fulfilled envelope result. -/
def resultRespStatus : Except ErrThrown RespErrResult → Option Nat
  | .ok (.response r) => some r.status
  | .ok (.errval _) => none
  | .error _ => none

/-- Whether a fulfilled result is an error-record value instead of an
envelope. -/
def resultIsErrval : Except ErrThrown RespErrResult → Bool
  | .ok (.errval _) => true
  | _ => false

/-- Transport-call recognizer on trace events. -/
def isFetchEvent : Event → Bool
  | .fetchCall _ _ _ => true
  | _ => false

/-- The url sent on the first transport call of a trace, if any. -/
def firstFetchUrl (tr : List Event) : Option String :=
  match tr.find? isFetchEvent with
  | some (.fetchCall u _ _) => some u
  | _ => none

/-- The body sent on the first transport call of a trace, if any. -/
def firstFetchBody (tr : List Event) : Option (Option String) :=
  match tr.find? isFetchEvent with
  | some (.fetchCall _ _ b) => some b
  | _ => none

/-- Expected sequence of onRequestError invocation events for an
enumerated interceptor list. -/
def reqErrEvents (ints : List (Nat × RequestInterceptor)) : List Event :=
  ints.filterMap fun p => p.2.onRequestError.map fun _ => Event.onRequestErrorCall p.1

/-- All onRequestError handlers of the enumerated list return normally on
this error. -/
def handlersAllOk (ints : List (Nat × RequestInterceptor)) (e : ErrThrown) : Prop :=
  ∀ p ∈ ints, ∀ h, p.2.onRequestError = some h → h e = .ok ()

/-- All onResponseError handlers of the enumerated list throw on this
error. -/
def respHandlersAllThrow (ints : List (Nat × ResponseInterceptor)) (e : ErrThrown) : Prop :=
  ∀ p ∈ ints, ∀ h, p.2.onResponseError = some h → ∃ e2, h e = .error e2

/-- The failure left in the loop variable after the recovery loop has run
every handler on the original httpError without any of them returning. -/
def recoveryLastError :
    List (Nat × ResponseInterceptor) → ErrThrown → ErrThrown → ErrThrown
  | [], _, err => err
  | p :: rest, httpError, err =>
    match p.2.onResponseError with
    | none => recoveryLastError rest httpError err
    | some h =>
      match h httpError with
      | .ok _ => err
      | .error e2 => recoveryLastError rest httpError e2

/-- The thrown value of a rejected result (a dummy platform error for a
fulfilled one); lets concrete instantiations name the error a computed
attempt rejected with. -/
def errOf : Except ErrThrown RespErrResult → ErrThrown
  | .error e => e
  | .ok _ => .jsError ""

/-- The empty initial instance state. -/
def st0 : ClientState := {}

/-- A client whose transport always yields an empty 200 response. -/
def okClient : HttpClient :=
  { fetchFn := fun _ _ => .resp { status := 200 } }

/-- A client whose transport always yields an empty 500 response. -/
def client500 : HttpClient :=
  { fetchFn := fun _ _ => .resp { status := 500 } }

/-- Client of the query-serialization scenario: base URL /api. -/
def c3client : HttpClient :=
  { okClient with baseURL := "/api" }

/-- Options of the query-serialization scenario:
params q = "a b" and empty = "". -/
def c3options : RequestOptions :=
  { params := some [("q", .str "a b"), ("empty", .str "")] }

/-- Client with a failing transport and one response interceptor whose
error handler would recover with an envelope. -/
def c4client : HttpClient :=
  { fetchFn := fun _ _ => .resp { status := 500 },
    responseInterceptors :=
      [{ onResponseError := some fun _ =>
           .ok (.response { data := .null, status := 200, headers := [], config := {} }) }] }

/-- Options carrying a retry policy with one remaining attempt whose
predicate rejects every error. -/
def c4options : RequestOptions :=
  { retry := some { count := 1, shouldRetry := some fun _ => false } }

/-- Client with two request interceptors: the first has a transform that
throws E0 and an error handler that throws E1, the second has an error
handler that returns normally. -/
def c5client : HttpClient :=
  { fetchFn := fun _ _ => .resp { status := 200 },
    requestInterceptors :=
      [{ onRequest := some fun _ => .error (.jsError "E0"),
         onRequestError := some fun _ => .error (.jsError "E1") },
       { onRequestError := some fun _ => .ok () }] }

/-- A request interceptor with an error handler that returns normally. -/
def c5okInt : RequestInterceptor :=
  { onRequestError := some fun _ => .ok () }

/-- Response interceptor whose error handler returns an error-record
value without throwing. -/
def c6intA : ResponseInterceptor :=
  { onResponseError := some fun _ => .ok (.errval { message := "still bad" }) }

/-- Response interceptor whose error handler returns an envelope. -/
def c6intB : ResponseInterceptor :=
  { onResponseError := some fun _ =>
      .ok (.response { data := .null, status := 200, headers := [], config := {} }) }

/-- Client with a failing transport and two response interceptors: the
first error handler returns an error-record value without throwing, the
second would return an envelope. -/
def c6client : HttpClient :=
  { fetchFn := fun _ _ => .jsErr "TypeError",
    responseInterceptors :=
      [{ onResponseError := some fun _ => .ok (.errval { message := "still bad" }) },
       { onResponseError := some fun _ =>
           .ok (.response { data := .null, status := 200, headers := [], config := {} }) }] }

/-- Options with retry policy count 1 and no predicate. -/
def optsCount1 : RequestOptions :=
  { retry := some { count := 1 } }

/-- Options with retry policy count 0. -/
def optsCount0 : RequestOptions :=
  { retry := some { count := 0 } }

/-- Client with one response interceptor whose transform throws and whose
error handler recovers with an envelope of status 299. -/
def c10client : HttpClient :=
  { fetchFn := fun _ _ => .resp { status := 200 },
    responseInterceptors :=
      [{ onResponse := some fun _ => .error (.jsError "Boom"),
         onResponseError := some fun _ =>
           .ok (.response { data := .null, status := 299, headers := [], config := {} }) }] }

/-- Raw response of the content-length 0 scenario. -/
def rawCL0 : RawResponse :=
  { status := 204, headers := [("content-length", "0")],
    body := some { text := "x", json := .ok "j" } }

/-- Raw response whose JSON body fails to parse, with a success status. -/
def rawBadJson : RawResponse :=
  { status := 200, headers := [("content-type", "application/json")],
    body := some { text := "oops", json := .error () } }

/-- Raw response with a parsable JSON body and a failure status. -/
def rawFail404 : RawResponse :=
  { status := 404, headers := [("content-type", "application/json")],
    body := some { text := "e", json := .ok "errbody" } }

theorem logEvent_pending (st : ClientState) (ev : Event) :
    (logEvent st ev).pending = st.pending := rfl

theorem pendingDelete_subset (st : ClientState) (key : String) :
    (pendingDelete st key).pending ⊆ st.pending := by
  intro x hx
  exact List.mem_of_mem_filter hx

theorem runOnRequestErrorHandlers_pending :
    ∀ (ints : List (Nat × RequestInterceptor)) (e : ErrThrown) (st : ClientState),
      (runOnRequestErrorHandlers ints e st).2.pending = st.pending := by
  intro ints
  induction ints with
  | nil => intro e st; rfl
  | cons p rest ih =>
    intro e st
    unfold runOnRequestErrorHandlers
    cases hOE : p.2.onRequestError with
    | none => simp only [hOE]; exact ih e st
    | some h =>
      simp only [hOE]
      cases hh : h e with
      | ok u => simp only [hh]; exact ih e _
      | error e2 => simp only [hh]; rfl

theorem applyRequestInterceptorsGo_pending (all : List (Nat × RequestInterceptor)) :
    ∀ (ints : List (Nat × RequestInterceptor)) (config : RequestOptions) (st : ClientState),
      (applyRequestInterceptorsGo all ints config st).2.pending = st.pending := by
  intro ints
  induction ints with
  | nil => intro config st; rfl
  | cons p rest ih =>
    intro config st
    unfold applyRequestInterceptorsGo
    cases hOR : p.2.onRequest with
    | none => simp only [hOR]; exact ih config st
    | some f =>
      simp only [hOR]
      cases hf : f config with
      | ok c2 => simp only [hf]; exact ih c2 _
      | error e =>
        simp only [hf]
        cases hr : runOnRequestErrorHandlers all e (logEvent st (Event.onRequestCall p.1)) with
        | mk res st2 =>
          have hp : st2.pending = st.pending := by
            have := runOnRequestErrorHandlers_pending all e
              (logEvent st (Event.onRequestCall p.1))
            rw [hr] at this
            exact this
          cases res with
          | ok u => simpa [hr] using hp
          | error e2 => simpa [hr] using hp

theorem applyRequestInterceptors_pending (client : HttpClient) (config : RequestOptions)
    (st : ClientState) :
    (applyRequestInterceptors client config st).2.pending = st.pending :=
  applyRequestInterceptorsGo_pending _ _ config st

theorem runOnResponseErrorHandlers_pending :
    ∀ (ints : List (Nat × ResponseInterceptor)) (e : ErrThrown) (st : ClientState),
      (runOnResponseErrorHandlers ints e st).2.pending = st.pending := by
  intro ints
  induction ints with
  | nil => intro e st; rfl
  | cons p rest ih =>
    intro e st
    unfold runOnResponseErrorHandlers
    cases hOE : p.2.onResponseError with
    | none => simp only [hOE]; exact ih e st
    | some h =>
      simp only [hOE]
      cases hh : h e with
      | ok u => simp only [hh]; exact ih e _
      | error e2 => simp only [hh]; rfl

theorem applyResponseInterceptorsGo_pending (all : List (Nat × ResponseInterceptor)) :
    ∀ (ints : List (Nat × ResponseInterceptor)) (response : HttpResponse) (st : ClientState),
      (applyResponseInterceptorsGo all ints response st).2.pending = st.pending := by
  intro ints
  induction ints with
  | nil => intro response st; rfl
  | cons p rest ih =>
    intro response st
    unfold applyResponseInterceptorsGo
    cases hOR : p.2.onResponse with
    | none => simp only [hOR]; exact ih response st
    | some f =>
      simp only [hOR]
      cases hf : f response with
      | ok r2 => simp only [hf]; exact ih r2 _
      | error e =>
        simp only [hf]
        cases hr : runOnResponseErrorHandlers all e (logEvent st (Event.onResponseCall p.1)) with
        | mk res st2 =>
          have hp : st2.pending = st.pending := by
            have := runOnResponseErrorHandlers_pending all e
              (logEvent st (Event.onResponseCall p.1))
            rw [hr] at this
            exact this
          cases res with
          | ok u => simpa [hr] using hp
          | error e2 => simpa [hr] using hp

theorem applyResponseInterceptors_pending (client : HttpClient) (response : HttpResponse)
    (st : ClientState) :
    (applyResponseInterceptors client response st).2.pending = st.pending :=
  applyResponseInterceptorsGo_pending _ _ response st

theorem recoveryLoop_pending :
    ∀ (ints : List (Nat × ResponseInterceptor)) (httpError err : ErrThrown) (st : ClientState),
      (recoveryLoop ints httpError err st).2.pending = st.pending := by
  intro ints
  induction ints with
  | nil => intro httpError err st; rfl
  | cons p rest ih =>
    intro httpError err st
    unfold recoveryLoop
    cases hOE : p.2.onResponseError with
    | none => simp only [hOE]; exact ih httpError err st
    | some h =>
      simp only [hOE]
      cases hh : h httpError with
      | ok v => simp only [hh]; rfl
      | error e2 => simp only [hh]; exact ih httpError e2 _

theorem catchTail_pending (client : HttpClient) (options : RequestOptions)
    (httpError : ErrThrown) (st : ClientState) :
    (catchTail client options httpError st).2.pending = st.pending := by
  unfold catchTail
  cases hr : recoveryLoop client.responseInterceptors.enum httpError httpError st with
  | mk res st1 =>
    have hp : st1.pending = st.pending := by
      have := recoveryLoop_pending client.responseInterceptors.enum httpError httpError st
      rw [hr] at this
      exact this
    cases res with
    | ok v => simpa [hr] using hp
    | error finalErr =>
      cases finalErr with
      | record e => simpa [hr] using hp
      | jsError n => by_cases hn : n == "AbortError" <;> simp [hr, hn, hp]

theorem requestAttempt_pending (client : HttpClient) (key url : String)
    (options : RequestOptions) (st : ClientState) :
    (requestAttempt client key url options st).2.pending ⊆ st.pending := by
  unfold requestAttempt
  cases hI : applyRequestInterceptors client options { st with nextId := st.nextId + 1 } with
  | mk res st1 =>
    have h1 : st1.pending = st.pending := by
      have := applyRequestInterceptors_pending client options { st with nextId := st.nextId + 1 }
      rw [hI] at this
      exact this
    cases res with
    | error e => simp only [hI]; intro x hx; rw [h1] at hx; exact hx
    | ok io =>
      simp only [hI]
      cases hF : client.fetchFn
          (createURLWithParams (client.baseURL ++ url) io.params)
          (buildFetchOptions client io) with
      | jsErr n =>
        simp only [hF, logEvent]
        intro x hx
        rw [h1] at hx
        exact hx
      | resp response =>
        simp only [hF]
        cases hH : handleResponse response io with
        | error e =>
          simp only [hH]
          intro x hx
          rw [← h1]
          exact pendingDelete_subset _ _ hx
        | ok handled =>
          simp only [hH]
          cases hR : applyResponseInterceptors client handled
              (pendingDelete (logEvent st1 (Event.fetchCall
                (createURLWithParams (client.baseURL ++ url) io.params)
                (buildFetchOptions client io).method
                (buildFetchOptions client io).body)) key) with
          | mk res2 st4 =>
            have h4 : st4.pending = (pendingDelete (logEvent st1 (Event.fetchCall
                (createURLWithParams (client.baseURL ++ url) io.params)
                (buildFetchOptions client io).method
                (buildFetchOptions client io).body)) key).pending := by
              have := applyResponseInterceptors_pending client handled
                (pendingDelete (logEvent st1 (Event.fetchCall
                  (createURLWithParams (client.baseURL ++ url) io.params)
                  (buildFetchOptions client io).method
                  (buildFetchOptions client io).body)) key)
              rw [hR] at this
              exact this
            cases res2 with
            | ok r =>
              simp only [hR]
              intro x hx
              rw [h4] at hx
              rw [← h1]
              exact pendingDelete_subset _ _ hx
            | error e =>
              simp only [hR]
              intro x hx
              rw [h4] at hx
              rw [← h1]
              exact pendingDelete_subset _ _ hx

theorem requestGo_pending (client : HttpClient) (url : String) :
    ∀ (fuel : Nat) (options : RequestOptions) (st : ClientState),
      (requestGo client fuel url options st).2.pending ⊆ st.pending := by
  intro fuel
  induction fuel with
  | zero =>
    intro options st
    unfold requestGo
    cases hA : requestAttempt client (createRequestKey client url options) url options st with
    | mk res st1 =>
      have hsub : st1.pending ⊆ st.pending := by
        have := requestAttempt_pending client (createRequestKey client url options) url options st
        rw [hA] at this
        exact this
      have hd : (pendingDelete st1 (createRequestKey client url options)).pending ⊆ st.pending :=
        fun x hx => hsub (pendingDelete_subset _ _ hx)
      have hct : ∀ e2, (catchTail client options e2
          (pendingDelete st1 (createRequestKey client url options))).2.pending ⊆ st.pending := by
        intro e2 x hx
        rw [catchTail_pending] at hx
        exact hd hx
      cases res with
      | ok v => simpa using hsub
      | error e =>
        cases hR : effRetry client options with
        | none => simpa [hR] using hct e
        | some rc =>
          by_cases h1 : 0 < rc.count
          · by_cases h2 : retryEligible rc e = true
            · simp only [hR, h1, h2, if_true]
              exact hd
            · simp only [hR, h1, if_true, h2]
              simp only [Bool.false_eq_true, if_false]
              exact hd
          · simp only [hR, h1, if_false]
            exact hct e
  | succ fuel2 ih =>
    intro options st
    unfold requestGo
    cases hA : requestAttempt client (createRequestKey client url options) url options st with
    | mk res st1 =>
      have hsub : st1.pending ⊆ st.pending := by
        have := requestAttempt_pending client (createRequestKey client url options) url options st
        rw [hA] at this
        exact this
      have hd : (pendingDelete st1 (createRequestKey client url options)).pending ⊆ st.pending :=
        fun x hx => hsub (pendingDelete_subset _ _ hx)
      have hct : ∀ e2, (catchTail client options e2
          (pendingDelete st1 (createRequestKey client url options))).2.pending ⊆ st.pending := by
        intro e2 x hx
        rw [catchTail_pending] at hx
        exact hd hx
      cases res with
      | ok v => simpa using hsub
      | error e =>
        cases hR : effRetry client options with
        | none => simpa [hR] using hct e
        | some rc =>
          by_cases h1 : 0 < rc.count
          · by_cases h2 : retryEligible rc e = true
            · simp only [hR, h1, h2, if_true]
              intro x hx
              exact hd (ih _ _ hx)
            · simp only [hR, h1, if_true, h2]
              simp only [Bool.false_eq_true, if_false]
              exact hd
          · simp only [hR, h1, if_false]
            exact hct e

/-- C1: at request start the fresh AbortController is never registered in
the pendingRequests map (the source has no pendingRequests.set call), so
the claimed in-flight registration and abort-on-cancel cannot happen: the
pending map only ever shrinks across a whole request, and cancelRequest on
a state whose pending map is empty is a no-op that aborts nothing. -/
theorem c1_registry_never_populated :
    (∀ (client : HttpClient) (fuel : Nat) (url : String) (options : RequestOptions)
        (st : ClientState),
        (requestGo client fuel url options st).2.pending ⊆ st.pending)
    ∧ (∀ (st : ClientState) (key : String), st.pending = [] → cancelRequest st key = st) := by
  constructor
  · intro client fuel url options st
    exact requestGo_pending client url fuel options st
  · intro st key h
    unfold cancelRequest
    rw [h]
    rfl

/-- Witness for C1 at a concrete client, request and state. -/
theorem c1_registry_never_populated_witness :
    (requestGo okClient 1 "/u" {} st0).2.pending ⊆ st0.pending
    ∧ cancelRequest st0 "k" = st0 :=
  ⟨c1_registry_never_populated.1 okClient 1 "/u" {} st0,
   c1_registry_never_populated.2 st0 "k" rfl⟩

/-- C2 counterexample: with no method specified (the claimed default GET
case) and a caller-supplied body, the transport receives the body. -/
theorem c2_default_method_keeps_body_cex :
    firstFetchBody (request okClient "/u" { body := some "B" } st0).2.trace = some (some "B")
    ∧ (some "B" : Option String) ≠ none := by
  exact ⟨by decide, by decide⟩

/-- C2 (amended): a request whose method field uppercases to GET or HEAD
is passed to the transport with no body; when the method is absent (the
default-GET case) a supplied body is not dropped; concretely, an explicit
GET with a body reaches the transport with the body dropped. -/
theorem c2_get_head_body_drop :
    (∀ (client : HttpClient) (io : RequestOptions),
        methodIsGetOrHead io.method = true → (buildFetchOptions client io).body = none)
    ∧ (∀ (client : HttpClient) (io : RequestOptions),
        methodIsGetOrHead io.method = false → (buildFetchOptions client io).body = io.body)
    ∧ firstFetchBody
        (request okClient "/u" { method := some "GET", body := some "B" } st0).2.trace
      = some none := by
  refine ⟨?_, ?_, by decide⟩
  · intro client io h
    unfold buildFetchOptions
    simp [h]
  · intro client io h
    unfold buildFetchOptions
    simp [h]

/-- Witness for C2 at concrete options: a lowercase get method drops the
body, an absent method keeps it. -/
theorem c2_get_head_body_drop_witness :
    (buildFetchOptions okClient { method := some "get", body := some "B" }).body = none
    ∧ (buildFetchOptions okClient { body := some "B" }).body = some "B" :=
  ⟨c2_get_head_body_drop.1 okClient { method := some "get", body := some "B" } (by decide),
   c2_get_head_body_drop.2.1 okClient { body := some "B" } (by decide)⟩

theorem foldl_keep_filter (ps : List (String × PVal)) :
    ∀ acc : List (String × String),
      ps.foldl (fun acc kv =>
        if pvalKeep kv.2 then acc ++ [(kv.1, pvalToString kv.2)] else acc) acc
      = acc ++ ((ps.filter fun kv => pvalKeep kv.2).map fun kv => (kv.1, pvalToString kv.2)) := by
  induction ps with
  | nil => intro acc; simp
  | cons p rest ih =>
    intro acc
    by_cases h : pvalKeep p.2 = true
    · simp [List.foldl_cons, List.filter_cons, h, ih]
    · simp [List.foldl_cons, List.filter_cons, h, ih]

theorem createURLWithParams_eq (url : String) (ps : List (String × PVal)) :
    createURLWithParams url (some ps) =
      (let queryString := searchParamsToString
          ((ps.filter fun kv => pvalKeep kv.2).map fun kv => (kv.1, pvalToString kv.2))
       if queryString != ""
       then url ++ (if url.data.contains '?' then "&" else "?") ++ queryString
       else url) := by
  unfold createURLWithParams
  dsimp only
  rw [foldl_keep_filter]
  rfl

/-- C3 counterexample: the scenario of the claim sends the transport
/api/users?q=a+b (the URLSearchParams serializer writes a space as a plus
sign), not /api/users?q=a%20b. -/
theorem c3_space_encoding_cex :
    firstFetchUrl (get c3client "/users" c3options st0).2.trace = some "/api/users?q=a+b"
    ∧ ("/api/users?q=a+b" : String) ≠ "/api/users?q=a%20b" := by
  exact ⟨by decide, by decide⟩

/-- C3 (amended): parameters that are undefined, null or blank after
trimming are omitted; the rest are form-urlencoded (space becomes a plus
sign) and appended after a question mark, or an ampersand when the url
already has one; the scenario with base /api sends /api/users?q=a+b. -/
theorem c3_query_serialization :
    (∀ (url k : String) (v : PVal) (ps1 ps2 : List (String × PVal)),
        pvalKeep v = false →
        createURLWithParams url (some (ps1 ++ (k, v) :: ps2)) =
          createURLWithParams url (some (ps1 ++ ps2)))
    ∧ (∀ (url : String) (ps : List (String × PVal)),
        createURLWithParams url (some ps) =
          (let queryString := searchParamsToString
              ((ps.filter fun kv => pvalKeep kv.2).map fun kv => (kv.1, pvalToString kv.2))
           if queryString != ""
           then url ++ (if url.data.contains '?' then "&" else "?") ++ queryString
           else url))
    ∧ firstFetchUrl (get c3client "/users" c3options st0).2.trace = some "/api/users?q=a+b" := by
  refine ⟨?_, createURLWithParams_eq, by decide⟩
  intro url k v ps1 ps2 h
  rw [createURLWithParams_eq, createURLWithParams_eq]
  simp [List.filter_append, List.filter_cons, h]

/-- Witness for C3: the blank-valued parameter of the scenario is omitted
from the serialized url. -/
theorem c3_query_serialization_witness :
    createURLWithParams "/api/users" (some [("q", .str "a b"), ("empty", .str "")]) =
      createURLWithParams "/api/users" (some [("q", .str "a b")]) :=
  c3_query_serialization.1 "/api/users" "empty" (.str "") [("q", .str "a b")] [] (by decide)

/-- C7 counterexample: with no predicate and a present status of 0 the
failed attempt is eligible for retry, although 0 is neither absent nor at
least 500, because 0 is falsy in the JS conditional. -/
theorem c7_status_zero_cex :
    retryEligible { count := 1 } (.record { message := "boom", status := some 0 }) = true
    ∧ errStatusOf (.record { message := "boom", status := some 0 }) = some 0
    ∧ ¬ (500 ≤ 0) := by
  exact ⟨rfl, rfl, by decide⟩

/-- C7 (amended): with no shouldRetry predicate, a failed attempt is
eligible iff its status is absent, zero (falsy, treated as absent), or at
least 500; a supplied predicate decides by its verdict on the error view. -/
theorem c7_retry_eligibility :
    (∀ (rc : RetryConfig) (e : ErrThrown), rc.shouldRetry = none →
        (retryEligible rc e = true ↔
          (errStatusOf e = none ∨ errStatusOf e = some 0 ∨
            ∃ s, errStatusOf e = some s ∧ 500 ≤ s)))
    ∧ (∀ (rc : RetryConfig) (p : ErrView → Bool) (e : ErrThrown),
        rc.shouldRetry = some p → retryEligible rc e = p (errView e)) := by
  constructor
  · intro rc e h
    unfold retryEligible
    rw [h]
    cases hs : errStatusOf e with
    | none => simp
    | some s =>
      by_cases h0 : s = 0
      · subst h0
        simp
      · simp [h0]
  · intro rc p e h
    unfold retryEligible
    rw [h]

/-- Witness for C7: a 503 is eligible under the default rule; a supplied
predicate decides for a 404. -/
theorem c7_retry_eligibility_witness :
    (retryEligible { count := 1 } (.record { message := "m", status := some 503 }) = true ↔
      (errStatusOf (.record { message := "m", status := some 503 }) = none ∨
        errStatusOf (.record { message := "m", status := some 503 }) = some 0 ∨
        ∃ s, errStatusOf (.record { message := "m", status := some 503 }) = some s ∧ 500 ≤ s))
    ∧ retryEligible { count := 1, shouldRetry := some fun v => v.status == some 404 }
        (.record { message := "m", status := some 404 }) =
      (fun v : ErrView => v.status == some 404)
        (errView (.record { message := "m", status := some 404 })) :=
  ⟨c7_retry_eligibility.1 { count := 1 } (.record { message := "m", status := some 503 }) rfl,
   c7_retry_eligibility.2 { count := 1, shouldRetry := some fun v => v.status == some 404 }
     (fun v => v.status == some 404) (.record { message := "m", status := some 404 }) rfl⟩

/-- C8: the decremented retry configuration has a non-negative count
whenever the positive-count guard held; in the scenario with policy count
1 against a transport that always answers 500, exactly two transport
calls happen (one retry) and the second 500 failure is propagated; with
count 0 a single transport call happens and the failure is propagated. -/
theorem c8_retry_budget :
    (∀ rc : RetryConfig, 0 < rc.count → 0 ≤ (retryNext rc).count)
    ∧ ((request client500 "/u" optsCount1 st0).2.trace.countP isFetchEvent = 2
        ∧ resultErrStatus (request client500 "/u" optsCount1 st0).1 = some 500
        ∧ resultIsOk (request client500 "/u" optsCount1 st0).1 = false)
    ∧ ((request client500 "/u" optsCount0 st0).2.trace.countP isFetchEvent = 1
        ∧ resultErrStatus (request client500 "/u" optsCount0 st0).1 = some 500) := by
  refine ⟨?_, ⟨by decide, by decide, by decide⟩, ⟨by decide, by decide⟩⟩
  intro rc h
  have he : (retryNext rc).count = rc.count - 1 := rfl
  rw [he]
  omega

/-- Witness for C8 at a policy with count 1. -/
theorem c8_retry_budget_witness :
    0 ≤ (retryNext { count := 1 }).count :=
  c8_retry_budget.1 { count := 1 } (by decide)

/-- C9: the response normalizer yields a null-data envelope with the
status passed through for an empty body (absent body or content-length 0)
on a success status; signals the Invalid response format record with null
data and the parse failure as cause regardless of status when JSON
parsing throws; and signals an error record carrying the parsed body, the
status and the configuration for a failure status when parsing did not
throw. -/
theorem c9_response_normalizer :
    (∀ (r : RawResponse) (config : RequestOptions),
        (r.body = none ∨ headersGet r.headers "content-length" = some "0") →
        r.ok = true →
        handleResponse r config =
          .ok { data := .null, status := r.status, headers := r.headers, config := config })
    ∧ (∀ (r : RawResponse) (config : RequestOptions) (b : RawBody) (ct : String),
        r.body = some b →
        headersGet r.headers "content-length" ≠ some "0" →
        headersGet r.headers "content-type" = some ct →
        includesSubstr ct "application/json" = true →
        b.json = .error () →
        handleResponse r config =
          .error (.record { message := "Invalid response format", status := some r.status,
                            data := some .null, config := some config,
                            cause := some "SyntaxError" }))
    ∧ (∀ (r : RawResponse) (config : RequestOptions) (d : ParsedData),
        r.ok = false → parseBody r = .ok d →
        handleResponse r config =
          .error (.record { message := "HTTP error! status: " ++ toString r.status,
                            status := some r.status, data := some d, config := some config })) := by
  refine ⟨?_, ?_, ?_⟩
  · intro r config hempty hok
    have hp : parseBody r = .ok .null := by
      unfold parseBody
      cases hb : r.body with
      | none => rfl
      | some b =>
        cases hempty with
        | inl h => rw [hb] at h; cases h
        | inr h => simp [h]
    unfold handleResponse
    rw [hp, hok]
    rfl
  · intro r config b ct hb hcl hct hj hperr
    have hp : parseBody r = .error () := by
      unfold parseBody
      rw [hb]
      have hcl2 : (headersGet r.headers "content-length" != some "0") = true := by
        simp [bne_iff_ne, hcl]
      rw [hcl2]
      simp only [if_true]
      rw [hct]
      simp only [hj, if_true]
      rw [hperr]
    unfold handleResponse
    rw [hp]
  · intro r config d hok hp
    unfold handleResponse
    rw [hp, hok]
    rfl

/-- Witness for C9 at three concrete raw responses: content-length 0 with
status 204, a malformed JSON body with status 200, a parsable JSON body
with status 404. -/
theorem c9_response_normalizer_witness :
    handleResponse rawCL0 {} =
      .ok { data := .null, status := rawCL0.status, headers := rawCL0.headers, config := {} }
    ∧ handleResponse rawBadJson {} =
      .error (.record { message := "Invalid response format", status := some rawBadJson.status,
                        data := some .null, config := some {}, cause := some "SyntaxError" })
    ∧ handleResponse rawFail404 {} =
      .error (.record { message := "HTTP error! status: " ++ toString rawFail404.status,
                        status := some rawFail404.status, data := some (.json "errbody"),
                        config := some {} }) :=
  ⟨c9_response_normalizer.1 rawCL0 {} (Or.inr rfl) rfl,
   c9_response_normalizer.2.1 rawBadJson {} { text := "oops", json := .error () }
     "application/json" rfl (by decide) rfl (by decide) rfl,
   c9_response_normalizer.2.2 rawFail404 {} (.json "errbody") rfl rfl⟩

theorem runOnRequestErrorHandlers_allOk :
    ∀ (ints : List (Nat × RequestInterceptor)) (e : ErrThrown) (st : ClientState),
      handlersAllOk ints e →
      runOnRequestErrorHandlers ints e st =
        (.ok (), { st with trace := st.trace ++ reqErrEvents ints }) := by
  intro ints
  induction ints with
  | nil =>
    intro e st h
    simp [runOnRequestErrorHandlers, reqErrEvents]
  | cons p rest ih =>
    intro e st h
    unfold runOnRequestErrorHandlers
    cases hOE : p.2.onRequestError with
    | none =>
      simp only [hOE]
      rw [ih e st (fun q hq => h q (List.mem_cons_of_mem _ hq))]
      simp [reqErrEvents, List.filterMap_cons, hOE]
    | some hdl =>
      simp only [hOE]
      have hok : hdl e = .ok () := h p (List.mem_cons_self _ _) hdl hOE
      rw [hok]
      rw [ih e _ (fun q hq => h q (List.mem_cons_of_mem _ hq))]
      simp [reqErrEvents, List.filterMap_cons, hOE, logEvent]

theorem runOnRequestErrorHandlers_fail :
    ∀ (pre : List (Nat × RequestInterceptor)) (i : Nat) (int : RequestInterceptor)
      (rest : List (Nat × RequestInterceptor)) (e e2 : ErrThrown)
      (hdl : ErrThrown → Except ErrThrown Unit) (st : ClientState),
      handlersAllOk pre e →
      int.onRequestError = some hdl → hdl e = .error e2 →
      runOnRequestErrorHandlers (pre ++ (i, int) :: rest) e st =
        (.error e2,
          { st with trace := (st.trace ++ reqErrEvents pre) ++ [Event.onRequestErrorCall i] }) := by
  intro pre
  induction pre with
  | nil =>
    intro i int rest e e2 hdl st hok hOE hfail
    simp only [List.nil_append]
    unfold runOnRequestErrorHandlers
    simp only [hOE]
    rw [hfail]
    simp [reqErrEvents, logEvent]
  | cons p rest2 ih =>
    intro i int rest e e2 hdl st hok hOE hfail
    simp only [List.cons_append]
    unfold runOnRequestErrorHandlers
    cases hp : p.2.onRequestError with
    | none =>
      simp only [hp]
      rw [ih i int rest e e2 hdl st (fun q hq => hok q (List.mem_cons_of_mem _ hq)) hOE hfail]
      simp [reqErrEvents, List.filterMap_cons, hp]
    | some hd2 =>
      simp only [hp]
      have hok2 : hd2 e = .ok () := hok p (List.mem_cons_self _ _) hd2 hp
      rw [hok2]
      rw [ih i int rest e e2 hdl _ (fun q hq => hok q (List.mem_cons_of_mem _ hq)) hOE hfail]
      simp [reqErrEvents, List.filterMap_cons, hp, logEvent]

theorem applyRequestInterceptorsGo_fail (all : List (Nat × RequestInterceptor))
    (i : Nat) (int : RequestInterceptor) (rest : List (Nat × RequestInterceptor))
    (f : RequestOptions → Except ErrThrown RequestOptions) (config : RequestOptions)
    (st : ClientState) (e : ErrThrown) :
    int.onRequest = some f → f config = .error e → handlersAllOk all e →
    applyRequestInterceptorsGo all ((i, int) :: rest) config st =
      (.error e,
        { st with trace := (st.trace ++ [Event.onRequestCall i]) ++ reqErrEvents all }) := by
  intro hOR hf hok
  unfold applyRequestInterceptorsGo
  simp only [hOR]
  rw [hf]
  dsimp only
  rw [runOnRequestErrorHandlers_allOk all e (logEvent st (Event.onRequestCall i)) hok]
  simp [logEvent]

theorem requestAttempt_reqfail (client : HttpClient) (key url : String)
    (options : RequestOptions) (st : ClientState) (e : ErrThrown) (st1 : ClientState) :
    applyRequestInterceptors client options { st with nextId := st.nextId + 1 } = (.error e, st1) →
    requestAttempt client key url options st = (.error e, st1) := by
  intro h
  unfold requestAttempt
  dsimp only
  rw [h]

/-- C5 counterexample: with two registered request interceptors whose
first error handler itself throws E1, only that first handler runs (the
second is never invoked), the transport is not called, and E1 — not the
original failure E0 — propagates to the caller. -/
theorem c5_throwing_handler_stops_chain_cex :
    (request c5client "/u" {} st0).2.trace =
      [Event.onRequestCall 0, Event.onRequestErrorCall 0]
    ∧ resultErrMessage (request c5client "/u" {} st0).1 = some "E1"
    ∧ (request c5client "/u" {} st0).2.trace.countP isFetchEvent = 0 := by
  exact ⟨by decide, by decide, by decide⟩

/-- C5 (amended): when a request transform fails, the onRequestError
handlers run in registration order; if they all return normally, each is
invoked exactly once and the original failure propagates without the
transport being invoked; but a handler that itself signals failure stops
the iteration (later handlers are not invoked) and its own failure
replaces the original one; no handler can recover the chain. -/
theorem c5_request_error_chain :
    (∀ (ints : List (Nat × RequestInterceptor)) (e : ErrThrown) (st : ClientState),
        handlersAllOk ints e →
        runOnRequestErrorHandlers ints e st =
          (.ok (), { st with trace := st.trace ++ reqErrEvents ints }))
    ∧ (∀ (pre : List (Nat × RequestInterceptor)) (i : Nat) (int : RequestInterceptor)
        (rest : List (Nat × RequestInterceptor)) (e e2 : ErrThrown)
        (hdl : ErrThrown → Except ErrThrown Unit) (st : ClientState),
        handlersAllOk pre e →
        int.onRequestError = some hdl → hdl e = .error e2 →
        runOnRequestErrorHandlers (pre ++ (i, int) :: rest) e st =
          (.error e2,
            { st with trace := (st.trace ++ reqErrEvents pre) ++ [Event.onRequestErrorCall i] }))
    ∧ (∀ (all : List (Nat × RequestInterceptor)) (i : Nat) (int : RequestInterceptor)
        (rest : List (Nat × RequestInterceptor))
        (f : RequestOptions → Except ErrThrown RequestOptions) (config : RequestOptions)
        (st : ClientState) (e : ErrThrown),
        int.onRequest = some f → f config = .error e → handlersAllOk all e →
        applyRequestInterceptorsGo all ((i, int) :: rest) config st =
          (.error e,
            { st with trace := (st.trace ++ [Event.onRequestCall i]) ++ reqErrEvents all }))
    ∧ (∀ (client : HttpClient) (key url : String) (options : RequestOptions)
        (st : ClientState) (e : ErrThrown) (st1 : ClientState),
        applyRequestInterceptors client options { st with nextId := st.nextId + 1 } =
          (.error e, st1) →
        requestAttempt client key url options st = (.error e, st1)) :=
  ⟨runOnRequestErrorHandlers_allOk, runOnRequestErrorHandlers_fail,
   applyRequestInterceptorsGo_fail, requestAttempt_reqfail⟩

/-- Witness for C5: one interceptor whose handler returns normally is
invoked once and the original failure is kept. -/
theorem c5_request_error_chain_witness :
    handlersAllOk [(0, c5okInt)] (.jsError "X")
    ∧ runOnRequestErrorHandlers [(0, c5okInt)] (.jsError "X") st0 =
        (.ok (), { st0 with trace := st0.trace ++ reqErrEvents [(0, c5okInt)] }) := by
  have hok : handlersAllOk [(0, c5okInt)] (.jsError "X") := by
    intro q hq hdl hh
    simp only [List.mem_singleton] at hq
    subst hq
    simp only [c5okInt] at hh
    cases hh
    rfl
  exact ⟨hok, c5_request_error_chain.1 [(0, c5okInt)] (.jsError "X") st0 hok⟩

theorem recoveryLoop_first_return :
    ∀ (pre : List (Nat × ResponseInterceptor)) (i : Nat) (int : ResponseInterceptor)
      (rest : List (Nat × ResponseInterceptor)) (httpError err : ErrThrown)
      (hdl : ErrThrown → Except ErrThrown RespErrResult) (v : RespErrResult) (st : ClientState),
      respHandlersAllThrow pre httpError →
      int.onResponseError = some hdl → hdl httpError = .ok v →
      (recoveryLoop (pre ++ (i, int) :: rest) httpError err st).1 = .ok v := by
  intro pre
  induction pre with
  | nil =>
    intro i int rest httpError err hdl v st hthrow hOE hv
    simp only [List.nil_append]
    unfold recoveryLoop
    simp only [hOE]
    rw [hv]
  | cons p rest2 ih =>
    intro i int rest httpError err hdl v st hthrow hOE hv
    simp only [List.cons_append]
    unfold recoveryLoop
    cases hp : p.2.onResponseError with
    | none =>
      simp only [hp]
      exact ih i int rest httpError err hdl v st
        (fun q hq => hthrow q (List.mem_cons_of_mem _ hq)) hOE hv
    | some hd2 =>
      simp only [hp]
      obtain ⟨e2, he2⟩ := hthrow p (List.mem_cons_self _ _) hd2 hp
      rw [he2]
      exact ih i int rest httpError e2 hdl v _
        (fun q hq => hthrow q (List.mem_cons_of_mem _ hq)) hOE hv

theorem recoveryLoop_allThrow :
    ∀ (ints : List (Nat × ResponseInterceptor)) (httpError err : ErrThrown) (st : ClientState),
      respHandlersAllThrow ints httpError →
      (recoveryLoop ints httpError err st).1 =
        .error (recoveryLastError ints httpError err) := by
  intro ints
  induction ints with
  | nil => intro httpError err st h; rfl
  | cons p rest ih =>
    intro httpError err st h
    unfold recoveryLoop recoveryLastError
    cases hp : p.2.onResponseError with
    | none =>
      simp only [hp]
      exact ih httpError err st (fun q hq => h q (List.mem_cons_of_mem _ hq))
    | some hdl =>
      simp only [hp]
      obtain ⟨e2, he2⟩ := h p (List.mem_cons_self _ _) hdl hp
      rw [he2]
      exact ih httpError e2 _ (fun q hq => h q (List.mem_cons_of_mem _ hq))

theorem catchTail_recovered (client : HttpClient) (options : RequestOptions)
    (httpError : ErrThrown) (st : ClientState) (v : RespErrResult) (st1 : ClientState) :
    recoveryLoop client.responseInterceptors.enum httpError httpError st = (.ok v, st1) →
    catchTail client options httpError st = (.ok v, st1) := by
  intro h
  unfold catchTail
  rw [h]

/-- C6 counterexample: with a failing transport and two response-error
handlers, the first of which returns an error-record value (as the
repository's own retry interceptor does) while the second would return an
envelope, the request fulfills with the error-record value — the
envelope of the later handler never becomes the result. -/
theorem c6_errval_return_shortcircuits_cex :
    resultIsOk (request c6client "/u" {} st0).1 = true
    ∧ resultIsErrval (request c6client "/u" {} st0).1 = true
    ∧ resultRespStatus (request c6client "/u" {} st0).1 ≠ some 200 := by
  exact ⟨by decide, by decide, by decide⟩

/-- C6 (amended): the recovery loop tries each onResponseError handler in
registration order on the original failure; the first one that returns
(whether an envelope or an error-record value) short-circuits and its
returned value becomes the fulfilled result of the request; if every
handler throws, the last failure is what remains. -/
theorem c6_recovery_chain :
    (∀ (pre : List (Nat × ResponseInterceptor)) (i : Nat) (int : ResponseInterceptor)
        (rest : List (Nat × ResponseInterceptor)) (httpError err : ErrThrown)
        (hdl : ErrThrown → Except ErrThrown RespErrResult) (v : RespErrResult)
        (st : ClientState),
        respHandlersAllThrow pre httpError →
        int.onResponseError = some hdl → hdl httpError = .ok v →
        (recoveryLoop (pre ++ (i, int) :: rest) httpError err st).1 = .ok v)
    ∧ (∀ (ints : List (Nat × ResponseInterceptor)) (httpError err : ErrThrown)
        (st : ClientState),
        respHandlersAllThrow ints httpError →
        (recoveryLoop ints httpError err st).1 =
          .error (recoveryLastError ints httpError err))
    ∧ (∀ (client : HttpClient) (options : RequestOptions) (httpError : ErrThrown)
        (st : ClientState) (v : RespErrResult) (st1 : ClientState),
        recoveryLoop client.responseInterceptors.enum httpError httpError st = (.ok v, st1) →
        catchTail client options httpError st = (.ok v, st1)) :=
  ⟨recoveryLoop_first_return, recoveryLoop_allThrow, catchTail_recovered⟩

/-- Witness for C6: an empty earlier segment, a handler that returns an
error-record value, and a later handler that would return an envelope. -/
theorem c6_recovery_chain_witness :
    respHandlersAllThrow [] (.jsError "TypeError")
    ∧ (recoveryLoop ([] ++ (0, c6intA) :: [(1, c6intB)])
        (.jsError "TypeError") (.jsError "TypeError") st0).1 =
      .ok (.errval { message := "still bad" }) := by
  have hthrow : respHandlersAllThrow [] (.jsError "TypeError") := by
    intro q hq hdl hh
    cases hq
  exact ⟨hthrow,
    c6_recovery_chain.1 [] 0 c6intA [(1, c6intB)] (.jsError "TypeError") (.jsError "TypeError")
      (fun _ => .ok (.errval { message := "still bad" }))
      (.errval { message := "still bad" }) st0 hthrow rfl rfl⟩

/-- C4 counterexample: with retry policy count 1 whose predicate rejects
every error and a registered response-error handler that would recover,
the 500 failure is re-signalled directly: the handler is never invoked,
the result is the rejection itself, not the recovery envelope. -/
theorem c4_ineligible_bypasses_chain_cex :
    resultErrMessage (request c4client "/u" c4options st0).1 = some "HTTP error! status: 500"
    ∧ resultIsOk (request c4client "/u" c4options st0).1 = false
    ∧ (request c4client "/u" c4options st0).2.trace.countP
        (fun ev => ev == Event.onResponseErrorCall 0) = 0 := by
  exact ⟨by decide, by decide, by decide⟩

/-- C4 (amended): on a failed attempt the retry decision is applied
first; when a policy with positive remaining count is in effect and the
eligibility rule rejects the error, the failure is re-signalled to the
caller directly, bypassing the response-error chain and the abort
translation; only when no policy is in effect, or its count is not
positive, does the failure fall through to the response-error chain, then
abort translation, then re-signalling (the catchTail path). -/
theorem c4_failure_path_order :
    (∀ (client : HttpClient) (fuel : Nat) (url : String) (options : RequestOptions)
        (st st1 : ClientState) (e : ErrThrown) (rc : RetryConfig),
        requestAttempt client (createRequestKey client url options) url options st =
          (.error e, st1) →
        effRetry client options = some rc → 0 < rc.count → retryEligible rc e = false →
        requestGo client fuel url options st =
          (.error e, pendingDelete st1 (createRequestKey client url options)))
    ∧ (∀ (client : HttpClient) (fuel : Nat) (url : String) (options : RequestOptions)
        (st st1 : ClientState) (e : ErrThrown),
        requestAttempt client (createRequestKey client url options) url options st =
          (.error e, st1) →
        (effRetry client options = none ∨
          ∃ rc, effRetry client options = some rc ∧ rc.count ≤ 0) →
        requestGo client fuel url options st =
          catchTail client options e (pendingDelete st1 (createRequestKey client url options))) := by
  constructor
  · intro client fuel url options st st1 e rc hA hR h1 h2
    unfold requestGo
    rw [hA]
    dsimp only
    rw [hR]
    simp [h1, h2]
  · intro client fuel url options st st1 e hA hR
    unfold requestGo
    rw [hA]
    dsimp only
    cases hR with
    | inl h =>
      rw [h]
    | inr h =>
      obtain ⟨rc, hrc, hle⟩ := h
      rw [hrc]
      simp [show ¬ 0 < rc.count by omega]

/-- Witness for C4 at the concrete ineligible-retry scenario. -/
theorem c4_failure_path_order_witness :
    requestGo c4client 2 "/u" c4options st0 =
      (.error (errOf (requestAttempt c4client (createRequestKey c4client "/u" c4options)
          "/u" c4options st0).1),
        pendingDelete (requestAttempt c4client (createRequestKey c4client "/u" c4options)
          "/u" c4options st0).2 (createRequestKey c4client "/u" c4options)) :=
  c4_failure_path_order.1 c4client 2 "/u" c4options st0
    (requestAttempt c4client (createRequestKey c4client "/u" c4options) "/u" c4options st0).2
    (errOf (requestAttempt c4client (createRequestKey c4client "/u" c4options)
      "/u" c4options st0).1)
    { count := 1, shouldRetry := some fun _ => false }
    rfl rfl (by decide) rfl

/-- C10: with one response interceptor whose transform throws and whose
error handler returns an envelope, that handler runs twice for the single
failure (once in the observation loop of the response chain, once more in
the recovery loop of the catch path of request) and the second invocation
converts the failure into a fulfilled envelope of status 299. -/
theorem c10_double_invocation_recovery :
    (request c10client "/u" {} st0).2.trace.countP
        (fun ev => ev == Event.onResponseErrorCall 0) = 2
    ∧ resultIsOk (request c10client "/u" {} st0).1 = true
    ∧ resultRespStatus (request c10client "/u" {} st0).1 = some 299 := by
  exact ⟨by decide, by decide, by decide⟩

end Http
